import Mathlib

/-!
A shallow embedding of the reconciliation core of `src/main.go`
(traefik-pihole-dns-sync).  Network transport is abstracted: the body of
each HTTP response is an explicit input, and every pure transformation the
Go code performs on those bodies is translated function by function.
Strings are handled at the `List Char` level where Go operates character
by character (`strings.Fields`, `strings.TrimSpace`, `strings.Trim`,
`strings.Split`, and the regex scan of `extractHostnames`).
-/

set_option autoImplicit false

namespace TraefikPiholeSync

/-- The backtick character (Go writes it as `\x60` inside the regex). -/
def grave : Char := Char.ofNat 96

/-- Go's `unicode.IsSpace` restricted to the Latin-1 range, which is the
only part exercised by this program's data: space, tab, newline, vertical
tab, form feed, carriage return, NEL (U+0085) and NBSP (U+00A0). -/
def goIsSpace (c : Char) : Bool :=
  c = ' ' || c = '\t' || c = '\n' || c = Char.ofNat 11 || c = Char.ofNat 12 ||
  c = '\r' || c = Char.ofNat 133 || c = Char.ofNat 160

/-- Accumulator-style splitter behind `goFields`; mirrors how Go's
`strings.Fields` cuts the input at maximal runs of whitespace and drops
empty pieces.  `acc` holds the characters of the current field, reversed. -/
def fieldsAux (acc : List Char) : List Char → List (List Char)
  | [] => if acc.isEmpty then [] else [acc.reverse]
  | c :: cs =>
    if goIsSpace c then
      if acc.isEmpty then fieldsAux [] cs else acc.reverse :: fieldsAux [] cs
    else fieldsAux (c :: acc) cs

/-- Character-level version of Go's `strings.Fields`. -/
def charFields (l : List Char) : List (List Char) := fieldsAux [] l

/-- Go's `strings.Fields`: split around runs of whitespace. -/
def goFields (s : String) : List String := (charFields s.toList).map String.mk

/-- Trim characters satisfying `p` from both ends of a character list.
With `p = goIsSpace` this is Go's `strings.TrimSpace`; with
`p = (· = grave)` it is Go's `strings.Trim(s, "\x60")`. -/
def trimBy (p : Char → Bool) (l : List Char) : List Char :=
  ((l.dropWhile p).reverse.dropWhile p).reverse

/-- Go's `strings.Split(s, ",")` at the character level: comma-separated
pieces, empty pieces kept (`strings.Split("", ",")` is `[""]`). -/
def splitComma : List Char → List (List Char)
  | [] => [[]]
  | c :: cs =>
    if c = ',' then [] :: splitComma cs
    else
      match splitComma cs with
      | [] => [[c]]
      | t :: ts => (c :: t) :: ts

/-- One attempt of the Go regex `Host\(\x60([^\x60]+)\x60\)` anchored at
the head of `l`.  The literal `Host(` and an opening backtick must be
present, the capture `[^\x60]+` is the maximal nonempty run of
non-backtick characters, and it must be closed by a backtick followed
immediately by `)`.  On success returns the capture and the remainder of
the text after the match (Go's `FindAllStringSubmatch` resumes there). -/
def tryHostMatch (l : List Char) : Option (List Char × List Char) :=
  match l with
  | 'H' :: 'o' :: 's' :: 't' :: '(' :: c :: rest =>
    if c = grave then
      let content := rest.takeWhile (fun d => !(d = grave))
      if content.isEmpty then none
      else
        match rest.dropWhile (fun d => !(d = grave)) with
        | d :: e :: rest2 =>
          if d = grave && e = ')' then some (content, rest2) else none
        | _ => none
    else none
  | _ => none

/-- Scanner behind `scanHostMatches`.  `fuel` only bounds recursion depth;
`scanHostMatches` supplies `l.length`, which is enough because every step
consumes at least one character. -/
def scanAux : Nat → List Char → List (List Char)
  | 0, _ => []
  | _, [] => []
  | fuel + 1, c :: cs =>
    match tryHostMatch (c :: cs) with
    | some (content, rest) => content :: scanAux fuel rest
    | none => scanAux fuel cs

/-- All captures of `hostRegex.FindAllStringSubmatch(rule, -1)` in order:
leftmost, non-overlapping matches of `Host\(\x60([^\x60]+)\x60\)`. -/
def scanHostMatches (l : List Char) : List (List Char) := scanAux l.length l

/-- `TraefikRouter` from `src/main.go` (the opaque `tls` payload, unused by
the sync logic, is omitted). -/
structure TraefikRouter where
  EntryPoints : List String := []
  Service : String := ""
  Rule : String := ""
  Status : String := ""
  Using : List String := []
  Name : String := ""
  Provider : String := ""
deriving DecidableEq, Repr

/-- The router table, `map[string]TraefikRouter`, modelled as an
association list in insertion order with unique keys. -/
abbrev RouterMap := List (String × TraefikRouter)

/-- Pi-hole's existing records, `map[string]string` keyed by hostname. -/
abbrev RecordMap := List (String × String)

/-- Go map lookup `m[k]` on the association-list model. -/
def assocLookup {α : Type} (k : String) : List (String × α) → Option α
  | [] => none
  | (k', v) :: rest => if k' = k then some v else assocLookup k rest

/-- Go map assignment `m[k] = v` on the association-list model: replace in
place if the key is present, otherwise append. -/
def assocInsert {α : Type} (k : String) (v : α) : List (String × α) → List (String × α)
  | [] => [(k, v)]
  | (k', v') :: rest =>
    if k' = k then (k, v) :: rest else (k', v') :: assocInsert k v rest

/-- `hostnameSet[hostname] = true` in Go: a string set kept as a duplicate
free list in first-insertion order. -/
def setInsert (acc : List String) (h : String) : List String :=
  if h ∈ acc then acc else acc ++ [h]

/-- Body of the `for _, host := range hosts` loop of `extractHostnames`:
trim whitespace then backticks from one comma-separated piece and insert
the result into the set when nonempty. -/
def insertHostname (acc : List String) (piece : List Char) : List String :=
  let hostname := String.mk (trimBy (fun d => d = grave) (trimBy goIsSpace piece))
  if hostname ≠ "" then setInsert acc hostname else acc

/-- Body of the `for _, match := range matches` loop of `extractHostnames`:
split one regex capture on commas and process each piece (the capture
group is always present, so Go's `len(match) > 1` test always passes). -/
def insertContent (acc : List String) (content : List Char) : List String :=
  (splitComma content).foldl insertHostname acc

/-- Body of the `for _, router := range routers` loop of
`extractHostnames`: skip routers whose status is not "enabled", otherwise
process every `Host(...)` capture of the rule. -/
def extractFromRouter (acc : List String) (router : TraefikRouter) : List String :=
  if router.Status ≠ "enabled" then acc
  else (scanHostMatches router.Rule.toList).foldl insertContent acc

/-- `extractHostnames` from `src/main.go`.  Go iterates the router map in
unspecified order; the model iterates the association list in order, which
fixes one order without affecting any set-level property. -/
def extractHostnames (routers : RouterMap) : List String :=
  (routers.map Prod.snd).foldl extractFromRouter []

/-- The body of one routing-API response, seen through Go's
`json.Unmarshal`: `asArray` is the result of decoding it as
`[]TraefikRouter` (document order, absent fields defaulted), `asObject`
the result of decoding it as `map[string]TraefikRouter` (key/value pairs
in document order), and `decodeErr` the message of the map-decode error
used when both decodes fail.  `raw` is the raw body text. -/
structure TraefikBody where
  asArray : Option (List TraefikRouter)
  asObject : Option (List (String × TraefikRouter))
  raw : String
  decodeErr : String

/-- Conversion of the array shape in `getTraefikRouters`:
`routers[router.Name] = router` over the array, in order. -/
def buildRouterMap (routersArray : List TraefikRouter) : RouterMap :=
  routersArray.foldl (fun routers router => assocInsert router.Name router routers) []

/-- `getTraefikRouters` from `src/main.go`, transport abstracted away (a
non-200 status or transport failure is already an `Except.error` before
this function is reached, so only the body handling is modelled): try the
array shape first, convert it to a map keyed by `Name`; fall back to the
object shape; if both fail, wrap the decode error.  Decoding a JSON
object into a Go map keeps the later value for a duplicated key, which is
exactly `assocInsert` folded over the pairs in document order. -/
def getTraefikRouters (body : TraefikBody) : Except String RouterMap :=
  match body.asArray with
  | some routersArray => Except.ok (buildRouterMap routersArray)
  | none =>
    match body.asObject with
    | some entries =>
      Except.ok (entries.foldl (fun routers p => assocInsert p.1 p.2 routers) [])
    | none =>
      Except.error ("failed to parse Traefik response as array or map: " ++ body.decodeErr)

/-- The last element of `rs` whose `Name` is `k`, if any: the value that
survives in a Go map after assigning every element of `rs` under its name. -/
def lastNamed (rs : List TraefikRouter) (k : String) : Option TraefikRouter :=
  match rs with
  | [] => none
  | r :: rest =>
    match lastNamed rest k with
    | some x => some x
    | none => if r.Name = k then some r else none

/-- One line of the Pi-hole `hosts` array, as read by the loop in
`getPiHoleDNSRecords`: split into whitespace-separated fields; with at
least two fields the first is the address and the second the hostname
(extra fields are ignored); otherwise the line is skipped. -/
def parseHostLine (line : String) : Option (String × String) :=
  match goFields line with
  | ip :: hostname :: _ => some (hostname, ip)
  | _ => none

/-- The record-building loop of `getPiHoleDNSRecords`:
`records[hostname] = ip` for every well-formed line, in order. -/
def buildRecords (hosts : List String) : RecordMap :=
  hosts.foldl (fun records line =>
    match parseHostLine line with
    | some (hostname, ip) => assocInsert hostname ip records
    | none => records) []

/-- `getPiHoleDNSRecords` from `src/main.go` with transport abstracted:
the input is either a fetch/decode failure or the `config.dns.hosts`
array of the JSON response; parsing the lines itself never fails. -/
def getPiHoleDNSRecords (resp : Except String (List String)) : Except String RecordMap :=
  match resp with
  | Except.error e => Except.error e
  | Except.ok hosts => Except.ok (buildRecords hosts)

/-- The address of the last well-formed line of `hosts` whose hostname is
`h`, if any ("later-encountered entry wins"). -/
def lastParsed (hosts : List String) (h : String) : Option String :=
  match hosts with
  | [] => none
  | line :: rest =>
    match lastParsed rest h with
    | some ip => some ip
    | none =>
      match parseHostLine line with
      | some (hostname, ip) => if hostname = h then some ip else none
      | none => none

/-- The entry built by `addPiHoleDNSRecord`:
`hostEntry := fmt.Sprintf("%s %s", ip, hostname)`.  (The URL path-escaping
applied for transport is undone by the server; the stored line is this.) -/
def hostEntry (ip hostname : String) : String := ip ++ " " ++ hostname

/-- `countMissing` from `src/main.go`. -/
def countMissing (hostnames : List String) (existing : RecordMap) : Nat :=
  hostnames.foldl (fun count hostname =>
    match assocLookup hostname existing with
    | none => count + 1
    | some _ => count) 0

/-- Observable outcome of the sync loop of `syncDNS`: `createCalls` lists
every invocation of `addPiHoleDNSRecord` (hostname, address) in order,
`added` counts the successful ones, `failed` the hostnames whose create
call failed (logged, loop continues), `wouldAdd` the dry-run log lines,
`preExisting` the already-present skips, and `reportedWouldAdd` the count
printed by the final dry-run log line. -/
structure SyncReport where
  createCalls : List (String × String) := []
  added : Nat := 0
  failed : List String := []
  wouldAdd : List String := []
  preExisting : List String := []
  reportedWouldAdd : Option Nat := none
deriving DecidableEq, Repr

/-- One iteration of the `for _, hostname := range hostnames` loop of
`syncDNS`.  `addOk` abstracts the outcome of `addPiHoleDNSRecord` for a
hostname (the call is issued first, then its error checked). -/
def syncStep (dryRun : Bool) (addOk : String → Bool) (targetIP : String)
    (existingRecords : RecordMap) (r : SyncReport) (hostname : String) : SyncReport :=
  match assocLookup hostname existingRecords with
  | none =>
    if dryRun then { r with wouldAdd := r.wouldAdd ++ [hostname] }
    else if addOk hostname then
      { r with createCalls := r.createCalls ++ [(hostname, targetIP)],
               added := r.added + 1 }
    else
      { r with createCalls := r.createCalls ++ [(hostname, targetIP)],
               failed := r.failed ++ [hostname] }
  | some _ => { r with preExisting := r.preExisting ++ [hostname] }

/-- The sync loop of `syncDNS` (steps 4 and the final log line): iterate
all hostnames, then in dry-run mode report `countMissing`. -/
def runSync (dryRun : Bool) (addOk : String → Bool) (targetIP : String)
    (hostnames : List String) (existingRecords : RecordMap) : SyncReport :=
  let r := hostnames.foldl (syncStep dryRun addOk targetIP existingRecords) {}
  if dryRun then { r with reportedWouldAdd := some (countMissing hostnames existingRecords) }
  else r

/-- `syncDNS` from `src/main.go` with network effects abstracted:
`authResult` is the outcome of `authenticatePiHoleV6`, `body` the routing
API response body, `hostsResult` the outcome of fetching the Pi-hole DNS
config, `addOk` the per-hostname outcome of `addPiHoleDNSRecord`.  The
`Option` distinguishes the early no-op return when no hostnames were
extracted. -/
def syncDNS (authResult : Except String String) (body : TraefikBody)
    (hostsResult : Except String (List String)) (dryRun : Bool)
    (addOk : String → Bool) (targetIP : String) : Except String (Option SyncReport) :=
  match authResult with
  | Except.error e => Except.error ("authentication failed: " ++ e)
  | Except.ok _sid =>
    match getTraefikRouters body with
    | Except.error e => Except.error ("failed to get Traefik routers: " ++ e)
    | Except.ok routers =>
      let hostnames := extractHostnames routers
      if hostnames.isEmpty then Except.ok none
      else
        match getPiHoleDNSRecords hostsResult with
        | Except.error e => Except.error ("failed to get Pi-hole DNS records: " ++ e)
        | Except.ok existingRecords =>
          Except.ok (some (runSync dryRun addOk targetIP hostnames existingRecords))

/-- Does `needle` occur at the head of `hay`? -/
def isSubAt : List Char → List Char → Bool
  | [], _ => true
  | _ :: _, [] => false
  | a :: as, b :: bs => a = b && isSubAt as bs

/-- Does `needle` occur anywhere inside `hay`? -/
def containsSub (needle : List Char) : List Char → Bool
  | [] => isSubAt needle []
  | b :: bs => isSubAt needle (b :: bs) || containsSub needle bs

/-- Substring test on strings, used to state "the error includes the raw
body". -/
def strIncludes (s sub : String) : Bool := containsSub sub.toList s.toList

/-! ### Helper lemmas -/

theorem assocLookup_assocInsert {α : Type} (k k' : String) (v : α) :
    ∀ (m : List (String × α)),
      assocLookup k' (assocInsert k v m) = if k = k' then some v else assocLookup k' m := by
  intro m
  induction m with
  | nil => simp [assocInsert, assocLookup]
  | cons p rest ih =>
    obtain ⟨pk, pv⟩ := p
    by_cases hk : pk = k
    · subst hk
      by_cases hkk : pk = k' <;> simp [assocInsert, assocLookup, hkk]
    · simp only [assocInsert, if_neg hk, assocLookup]
      by_cases hk' : pk = k'
      · subst hk'
        have : ¬ (k = pk) := fun h => hk h.symm
        simp [this]
      · simp [hk', ih]

theorem foldl_syncStep_false (addOk : String → Bool) (tIP : String) (ex : RecordMap) :
    ∀ (l : List String) (r : SyncReport),
      l.foldl (syncStep false addOk tIP ex) r =
      { createCalls := r.createCalls ++
          (l.filter (fun h => (assocLookup h ex).isNone)).map (fun h => (h, tIP)),
        added := r.added + (l.filter (fun h => (assocLookup h ex).isNone && addOk h)).length,
        failed := r.failed ++ l.filter (fun h => (assocLookup h ex).isNone && !(addOk h)),
        wouldAdd := r.wouldAdd,
        preExisting := r.preExisting ++ l.filter (fun h => (assocLookup h ex).isSome),
        reportedWouldAdd := r.reportedWouldAdd } := by
  intro l
  induction l with
  | nil => intro r; simp
  | cons h t ih =>
    intro r
    rw [List.foldl_cons, ih]
    cases hx : assocLookup h ex with
    | none =>
      cases ha : addOk h
      · simp [syncStep, hx, ha, List.filter_cons]
      · simp [syncStep, hx, ha, List.filter_cons]
        omega
    | some ip =>
      simp [syncStep, hx, List.filter_cons]

theorem foldl_syncStep_true (addOk : String → Bool) (tIP : String) (ex : RecordMap) :
    ∀ (l : List String) (r : SyncReport),
      l.foldl (syncStep true addOk tIP ex) r =
      { r with wouldAdd := r.wouldAdd ++ l.filter (fun h => (assocLookup h ex).isNone),
               preExisting := r.preExisting ++ l.filter (fun h => (assocLookup h ex).isSome) } := by
  intro l
  induction l with
  | nil => intro r; simp
  | cons h t ih =>
    intro r
    rw [List.foldl_cons, ih]
    cases hx : assocLookup h ex with
    | none => simp [syncStep, hx, List.filter_cons]
    | some ip => simp [syncStep, hx, List.filter_cons]

theorem countMissing_eq_filter_length (ex : RecordMap) :
    ∀ (l : List String) (n : Nat),
      l.foldl (fun count hostname =>
        match assocLookup hostname ex with
        | none => count + 1
        | some _ => count) n =
      n + (l.filter (fun h => (assocLookup h ex).isNone)).length := by
  intro l
  induction l with
  | nil => intro n; simp
  | cons h t ih =>
    intro n
    rw [List.foldl_cons]
    cases hx : assocLookup h ex with
    | none =>
      simp only [hx]
      rw [ih]
      simp [List.filter_cons, hx]
      ring
    | some ip =>
      simp only [hx]
      rw [ih]
      simp [List.filter_cons, hx]

theorem countMissing_spec (l : List String) (ex : RecordMap) :
    countMissing l ex = (l.filter (fun h => (assocLookup h ex).isNone)).length := by
  unfold countMissing
  rw [countMissing_eq_filter_length]
  simp

theorem runSync_false_spec (addOk : String → Bool) (tIP : String) (ex : RecordMap)
    (l : List String) :
    runSync false addOk tIP l ex =
    { createCalls := (l.filter (fun h => (assocLookup h ex).isNone)).map (fun h => (h, tIP)),
      added := (l.filter (fun h => (assocLookup h ex).isNone && addOk h)).length,
      failed := l.filter (fun h => (assocLookup h ex).isNone && !(addOk h)),
      wouldAdd := [],
      preExisting := l.filter (fun h => (assocLookup h ex).isSome),
      reportedWouldAdd := none } := by
  unfold runSync
  rw [foldl_syncStep_false]
  simp

theorem runSync_true_spec (addOk : String → Bool) (tIP : String) (ex : RecordMap)
    (l : List String) :
    runSync true addOk tIP l ex =
    { createCalls := [],
      added := 0,
      failed := [],
      wouldAdd := l.filter (fun h => (assocLookup h ex).isNone),
      preExisting := l.filter (fun h => (assocLookup h ex).isSome),
      reportedWouldAdd := some (countMissing l ex) } := by
  unfold runSync
  rw [foldl_syncStep_true]
  simp

theorem assocLookup_foldl_routers (k : String) :
    ∀ (rs : List TraefikRouter) (m : RouterMap),
      assocLookup k (rs.foldl (fun routers router => assocInsert router.Name router routers) m) =
      match lastNamed rs k with
      | some r => some r
      | none => assocLookup k m := by
  intro rs
  induction rs with
  | nil => intro m; simp [lastNamed]
  | cons r rest ih =>
    intro m
    rw [List.foldl_cons, ih]
    cases hl : lastNamed rest k with
    | some x => simp [lastNamed, hl]
    | none =>
      simp only [lastNamed, hl]
      rw [assocLookup_assocInsert]
      by_cases hn : r.Name = k <;> simp [hn]

theorem assocLookup_buildRouterMap (rs : List TraefikRouter) (k : String) :
    assocLookup k (buildRouterMap rs) = lastNamed rs k := by
  unfold buildRouterMap
  rw [assocLookup_foldl_routers]
  cases lastNamed rs k <;> simp [assocLookup]

theorem assocLookup_foldl_records (h : String) :
    ∀ (hosts : List String) (m : RecordMap),
      assocLookup h (hosts.foldl (fun records line =>
        match parseHostLine line with
        | some (hostname, ip) => assocInsert hostname ip records
        | none => records) m) =
      match lastParsed hosts h with
      | some ip => some ip
      | none => assocLookup h m := by
  intro hosts
  induction hosts with
  | nil => intro m; simp [lastParsed]
  | cons line rest ih =>
    intro m
    rw [List.foldl_cons, ih]
    cases hl : lastParsed rest h with
    | some ip => simp [lastParsed, hl]
    | none =>
      simp only [lastParsed, hl]
      cases hp : parseHostLine line with
      | none => simp
      | some p =>
        obtain ⟨hostname, ip⟩ := p
        simp only []
        rw [assocLookup_assocInsert]
        by_cases hn : hostname = h <;> simp [hn]

theorem assocLookup_buildRecords (hosts : List String) (h : String) :
    assocLookup h (buildRecords hosts) = lastParsed hosts h := by
  unfold buildRecords
  rw [assocLookup_foldl_records]
  cases lastParsed hosts h <;> simp [assocLookup]

theorem parseHostLine_short (bad : String) (hbad : (goFields bad).length < 2) :
    parseHostLine bad = none := by
  unfold parseHostLine
  cases hf : goFields bad with
  | nil => simp
  | cons a rest =>
    cases rest with
    | nil => simp
    | cons b rest2 =>
      rw [hf] at hbad
      simp only [List.length_cons] at hbad
      exact absurd hbad (by omega)

theorem buildRecords_skips_short (pre post : List String) (bad : String)
    (hbad : (goFields bad).length < 2) :
    buildRecords (pre ++ bad :: post) = buildRecords (pre ++ post) := by
  unfold buildRecords
  rw [List.foldl_append, List.foldl_append, List.foldl_cons,
      parseHostLine_short bad hbad]

theorem fieldsAux_nil (acc : List Char) :
    fieldsAux acc [] = if acc.isEmpty then [] else [acc.reverse] := rfl

theorem fieldsAux_cons_nonspace (acc : List Char) (c : Char) (l : List Char)
    (hc : goIsSpace c = false) : fieldsAux acc (c :: l) = fieldsAux (c :: acc) l := by
  simp [fieldsAux, hc]

theorem fieldsAux_cons_space (acc : List Char) (c : Char) (l : List Char)
    (hc : goIsSpace c = true) :
    fieldsAux acc (c :: l) =
    if acc.isEmpty then fieldsAux [] l else acc.reverse :: fieldsAux [] l := by
  simp [fieldsAux, hc]

theorem fieldsAux_nonspace (rest : List Char) :
    ∀ (l : List Char) (acc : List Char), (∀ c ∈ l, goIsSpace c = false) →
      fieldsAux acc (l ++ rest) = fieldsAux (l.reverse ++ acc) rest := by
  intro l
  induction l with
  | nil => intro acc _; simp
  | cons c cs ih =>
    intro acc hns
    have hc : goIsSpace c = false := hns c (by simp)
    have hcs : ∀ d ∈ cs, goIsSpace d = false := fun d hd => hns d (by simp [hd])
    rw [List.cons_append, fieldsAux_cons_nonspace acc c (cs ++ rest) hc,
        ih (c :: acc) hcs]
    simp

theorem charFields_single (l : List Char) (hne : l ≠ [])
    (hns : ∀ c ∈ l, goIsSpace c = false) : charFields l = [l] := by
  unfold charFields
  have h0 : fieldsAux [] l = fieldsAux l.reverse [] := by
    have := fieldsAux_nonspace [] l [] hns
    simpa using this
  rw [h0, fieldsAux_nil]
  simp [List.isEmpty_iff, hne]

theorem charFields_pair (l1 l2 : List Char) (h1 : l1 ≠ []) (h2 : l2 ≠ [])
    (hns1 : ∀ c ∈ l1, goIsSpace c = false) (hns2 : ∀ c ∈ l2, goIsSpace c = false) :
    charFields (l1 ++ ' ' :: l2) = [l1, l2] := by
  unfold charFields
  rw [fieldsAux_nonspace (' ' :: l2) l1 [] hns1]
  rw [fieldsAux_cons_space _ ' ' l2 (by decide)]
  have hra : (l1.reverse ++ ([] : List Char)).isEmpty = false := by
    simp [List.isEmpty_iff, h1]
  rw [hra]
  have h2aux : fieldsAux [] l2 = fieldsAux l2.reverse [] := by
    have := fieldsAux_nonspace [] l2 [] hns2
    simpa using this
  rw [if_neg (by simp), h2aux, fieldsAux_nil]
  simp [List.isEmpty_iff, h2]

theorem goFields_hostEntry (ip host : String) (hip : ip ≠ "") (hhost : host ≠ "")
    (hipc : ∀ c ∈ ip.toList, goIsSpace c = false)
    (hhostc : ∀ c ∈ host.toList, goIsSpace c = false) :
    goFields (hostEntry ip host) = [ip, host] := by
  unfold goFields hostEntry
  have hdata : (ip ++ " " ++ host).toList = ip.toList ++ ' ' :: host.toList := by
    show (ip ++ " " ++ host).data = ip.data ++ ' ' :: host.data
    rw [String.data_append, String.data_append]
    have hsp : (" " : String).data = [' '] := rfl
    rw [hsp, List.append_assoc]
    rfl
  rw [hdata]
  have hne1 : ip.toList ≠ [] := by
    intro h
    exact hip (by
      have := congrArg String.mk h
      simpa using this)
  have hne2 : host.toList ≠ [] := by
    intro h
    exact hhost (by
      have := congrArg String.mk h
      simpa using this)
  rw [charFields_pair ip.toList host.toList hne1 hne2 hipc hhostc]
  simp

theorem parseHostLine_hostEntry (ip host : String) (hip : ip ≠ "") (hhost : host ≠ "")
    (hipc : ∀ c ∈ ip.toList, goIsSpace c = false)
    (hhostc : ∀ c ∈ host.toList, goIsSpace c = false) :
    parseHostLine (hostEntry ip host) = some (host, ip) := by
  unfold parseHostLine
  rw [goFields_hostEntry ip host hip hhost hipc hhostc]

theorem mem_setInsert (acc : List String) (h x : String) :
    x ∈ setInsert acc h ↔ x ∈ acc ∨ x = h := by
  unfold setInsert
  by_cases hm : h ∈ acc
  · simp only [if_pos hm]
    constructor
    · exact fun hx => Or.inl hx
    · rintro (hx | rfl)
      · exact hx
      · exact hm
  · simp [if_neg hm]

theorem setInsert_nodup (acc : List String) (h : String) (hnd : acc.Nodup) :
    (setInsert acc h).Nodup := by
  unfold setInsert
  by_cases hm : h ∈ acc
  · simpa [if_pos hm] using hnd
  · simp [if_neg hm, List.nodup_append, hnd, hm]

theorem foldl_mem_general {β : Type} (step : List String → β → List String)
    (R : β → String → Prop)
    (hstep : ∀ acc b x, x ∈ step acc b → x ∈ acc ∨ R b x) :
    ∀ (l : List β) (acc : List String) (x : String),
      x ∈ l.foldl step acc → x ∈ acc ∨ ∃ b, b ∈ l ∧ R b x := by
  intro l
  induction l with
  | nil => intro acc x hx; exact Or.inl hx
  | cons b t ih =>
    intro acc x hx
    rw [List.foldl_cons] at hx
    rcases ih (step acc b) x hx with hx' | ⟨b', hb', hr⟩
    · rcases hstep acc b x hx' with hx'' | hr
      · exact Or.inl hx''
      · exact Or.inr ⟨b, by simp, hr⟩
    · exact Or.inr ⟨b', by simp [hb'], hr⟩

theorem foldl_nodup_general {β : Type} (step : List String → β → List String)
    (hstep : ∀ acc b, acc.Nodup → (step acc b).Nodup) :
    ∀ (l : List β) (acc : List String), acc.Nodup → (l.foldl step acc).Nodup := by
  intro l
  induction l with
  | nil => intro acc hnd; exact hnd
  | cons b t ih =>
    intro acc hnd
    rw [List.foldl_cons]
    exact ih (step acc b) (hstep acc b hnd)

/-! ### Claims -/

/-- C1: in apply mode the sync loop issues exactly one create call for each
desired hostname absent from the existing mapping (in order, paired with
the target address), no create call for a hostname already present (those
are reported as pre-existing skips), and — when the desired list is
duplicate free, as `extractHostnames` guarantees — each missing hostname
is the subject of exactly one create call and each present one of none. -/
theorem reconciler_apply_adds_exactly_missing (addOk : String → Bool) (tIP h : String)
    (hostnames : List String) (existing : RecordMap) (hnd : hostnames.Nodup) :
    (runSync false addOk tIP hostnames existing).createCalls =
      (hostnames.filter (fun x => (assocLookup x existing).isNone)).map (fun x => (x, tIP)) ∧
    (runSync false addOk tIP hostnames existing).preExisting =
      hostnames.filter (fun x => (assocLookup x existing).isSome) ∧
    ((runSync false addOk tIP hostnames existing).createCalls.map Prod.fst).count h =
      (if h ∈ hostnames ∧ assocLookup h existing = none then 1 else 0) := by
  refine ⟨by rw [runSync_false_spec], by rw [runSync_false_spec], ?_⟩
  have hcc : (runSync false addOk tIP hostnames existing).createCalls =
      (hostnames.filter (fun x => (assocLookup x existing).isNone)).map (fun x => (x, tIP)) := by
    rw [runSync_false_spec]
  rw [hcc]
  have hmapfst :
      ((hostnames.filter (fun x => (assocLookup x existing).isNone)).map
        (fun x => (x, tIP))).map Prod.fst =
      hostnames.filter (fun x => (assocLookup x existing).isNone) := by
    simp [Function.comp_def]
  rw [hmapfst]
  have hndf : (hostnames.filter (fun x => (assocLookup x existing).isNone)).Nodup :=
    hnd.filter _
  rw [List.count_eq_of_nodup hndf]
  have hiff : h ∈ hostnames.filter (fun x => (assocLookup x existing).isNone) ↔
      (h ∈ hostnames ∧ assocLookup h existing = none) := by
    simp [List.mem_filter, Option.isNone_iff_eq_none]
  rw [if_congr hiff rfl rfl]

/-- Witness for C1 at the spec's own example: desired
a.example.com, b.example.com against existing a.example.com mapped to
10.0.0.5 yields exactly one addition (b.example.com paired with the
target address) and one pre-existing skip. -/
theorem reconciler_apply_adds_exactly_missing_witness :
    (["a.example.com", "b.example.com"] : List String).Nodup ∧
    ((runSync false (fun _ => true) "192.168.1.10" ["a.example.com", "b.example.com"]
        [("a.example.com", "10.0.0.5")]).createCalls =
      ((["a.example.com", "b.example.com"] : List String).filter
          (fun x => (assocLookup x [("a.example.com", "10.0.0.5")]).isNone)).map
        (fun x => (x, "192.168.1.10")) ∧
    (runSync false (fun _ => true) "192.168.1.10" ["a.example.com", "b.example.com"]
        [("a.example.com", "10.0.0.5")]).preExisting =
      (["a.example.com", "b.example.com"] : List String).filter
        (fun x => (assocLookup x [("a.example.com", "10.0.0.5")]).isSome) ∧
    ((runSync false (fun _ => true) "192.168.1.10" ["a.example.com", "b.example.com"]
        [("a.example.com", "10.0.0.5")]).createCalls.map Prod.fst).count "b.example.com" =
      (if "b.example.com" ∈ (["a.example.com", "b.example.com"] : List String) ∧
          assocLookup "b.example.com" [("a.example.com", "10.0.0.5")] = none
        then 1 else 0)) :=
  ⟨by decide, reconciler_apply_adds_exactly_missing (fun _ => true) "192.168.1.10"
    "b.example.com" ["a.example.com", "b.example.com"] [("a.example.com", "10.0.0.5")]
    (by decide)⟩

/-- C3: in dry-run mode the sync loop makes no create call at all, records
every missing hostname as an intended addition only, and the reported
would-add count (`countMissing`) equals the number of desired hostnames
absent from the existing mapping. -/
theorem dry_run_makes_no_writes_and_reports_diff (addOk : String → Bool) (tIP : String)
    (hostnames : List String) (existing : RecordMap) :
    (runSync true addOk tIP hostnames existing).createCalls = [] ∧
    (runSync true addOk tIP hostnames existing).wouldAdd =
      hostnames.filter (fun x => (assocLookup x existing).isNone) ∧
    (runSync true addOk tIP hostnames existing).reportedWouldAdd =
      some (countMissing hostnames existing) ∧
    countMissing hostnames existing =
      (hostnames.filter (fun x => (assocLookup x existing).isNone)).length := by
  refine ⟨?_, ?_, ?_, countMissing_spec hostnames existing⟩ <;>
    simp [runSync_true_spec]

/-- C5: the two wire shapes for the same logical route data are fetched
identically: with the array shape present it is used (the object decode is
never consulted), and the object shape keyed by each router's name yields
the same router mapping, hence the same extracted hostname set. -/
theorem router_array_and_object_shapes_agree (rs : List TraefikRouter)
    (o : Option (List (String × TraefikRouter))) (raw1 raw2 err1 err2 : String) :
    getTraefikRouters { asArray := some rs, asObject := o, raw := raw1, decodeErr := err1 } =
      Except.ok (buildRouterMap rs) ∧
    getTraefikRouters
        { asArray := none, asObject := some (rs.map (fun r => (r.Name, r))),
          raw := raw2, decodeErr := err2 } =
      Except.ok (buildRouterMap rs) ∧
    Except.map extractHostnames
        (getTraefikRouters { asArray := some rs, asObject := o, raw := raw1, decodeErr := err1 }) =
      Except.map extractHostnames
        (getTraefikRouters
          { asArray := none, asObject := some (rs.map (fun r => (r.Name, r))),
            raw := raw2, decodeErr := err2 }) := by
  have hobj : getTraefikRouters
      { asArray := none, asObject := some (rs.map (fun r => (r.Name, r))),
        raw := raw2, decodeErr := err2 } =
      Except.ok (buildRouterMap rs) := by
    show Except.ok
        ((rs.map (fun r => (r.Name, r))).foldl (fun routers p => assocInsert p.1 p.2 routers) []) =
      Except.ok (buildRouterMap rs)
    rw [List.foldl_map]
    rfl
  exact ⟨rfl, hobj, by rw [hobj]; rfl⟩

/-- C9 counterexample: when both decodes fail the code wraps the decoder's
error message after a fixed prefix; the raw response body is not included.
For the body consisting of a single opening brace, Go's decoder reports
"unexpected end of JSON input", and the resulting error does not contain
the body. -/
theorem parse_error_counterexample :
    getTraefikRouters
        { asArray := none, asObject := none, raw := "\x7b",
          decodeErr := "unexpected end of JSON input" } =
      Except.error
        "failed to parse Traefik response as array or map: unexpected end of JSON input" ∧
    strIncludes
        "failed to parse Traefik response as array or map: unexpected end of JSON input"
        "\x7b" = false :=
  ⟨rfl, by decide⟩

/-- C9 (amended): when both decodes fail, the route fetch returns a parse
error consisting of the fixed prefix followed by the decode error
message; the raw body itself is not interpolated by this code. -/
theorem parse_error_wraps_decode_error (raw err : String) :
    getTraefikRouters { asArray := none, asObject := none, raw := raw, decodeErr := err } =
      Except.error ("failed to parse Traefik response as array or map: " ++ err) := rfl

/-- C10: under the array shape the mapping is keyed by each element's
`Name` and a later element with the same name (including the empty name of
an absent field) overwrites an earlier one, so a hostname only present in
the overwritten element's rule is silently dropped from extraction. -/
theorem array_shape_later_name_overwrites (rs : List TraefikRouter) (k : String) :
    assocLookup k (buildRouterMap rs) = lastNamed rs k ∧
    getTraefikRouters
        { asArray := some
            [{ Name := "", Rule := "Host(`a.example.com`)", Status := "enabled" },
             { Name := "", Rule := "Host(`b.example.com`)", Status := "enabled" }],
          asObject := none, raw := "", decodeErr := "" } =
      Except.ok [("", { Name := "", Rule := "Host(`b.example.com`)", Status := "enabled" })] ∧
    extractHostnames
        [("", { Name := "", Rule := "Host(`b.example.com`)", Status := "enabled" })] =
      ["b.example.com"] :=
  ⟨assocLookup_buildRouterMap rs k, by rfl, by decide⟩

/-- C2 (failing input for the claimed grammar): the extraction regex
requires a single backtick pair directly closed by a parenthesis, so a
rule that quotes each hostname in its own backtick pair — the form the
code's own comment says it matches — produces no match at all and no
hostname is extracted, while the single-pair form is extracted. -/
theorem multi_backtick_rule_extracts_nothing :
    extractHostnames [("websecure",
        { Name := "websecure", Rule := "Host(`h1`,`h2`)", Status := "enabled" })] = [] ∧
    extractHostnames [("websecure",
        { Name := "websecure", Rule := "Host(`h1`)", Status := "enabled" })] = ["h1"] :=
  ⟨by decide, by decide⟩

/-- C6: the DNS state reader skips, without error and without affecting
the other lines, every line with fewer than two whitespace-separated
tokens, and keys the resulting mapping by hostname with the
later-encountered line winning for a duplicated hostname. -/
theorem dns_reader_skips_short_lines_and_later_wins (pre post hosts : List String)
    (bad h : String) (hbad : (goFields bad).length < 2) :
    buildRecords (pre ++ bad :: post) = buildRecords (pre ++ post) ∧
    assocLookup h (buildRecords hosts) = lastParsed hosts h :=
  ⟨buildRecords_skips_short pre post bad hbad, assocLookup_buildRecords hosts h⟩

/-- Witness for C6: a single-token comment line between two well-formed
lines is skipped, and a duplicated hostname resolves to the later line. -/
theorem dns_reader_skips_short_lines_and_later_wins_witness :
    (goFields "#comment").length < 2 ∧
    (buildRecords (["10.0.0.5 a.example.com"] ++ "#comment" :: ["10.0.0.6 b.example.com"]) =
      buildRecords (["10.0.0.5 a.example.com"] ++ ["10.0.0.6 b.example.com"]) ∧
    assocLookup "a.example.com"
        (buildRecords ["10.0.0.5 a.example.com", "10.0.0.6 a.example.com"]) =
      lastParsed ["10.0.0.5 a.example.com", "10.0.0.6 a.example.com"] "a.example.com") :=
  ⟨by decide, dns_reader_skips_short_lines_and_later_wins
    ["10.0.0.5 a.example.com"] ["10.0.0.6 b.example.com"]
    ["10.0.0.5 a.example.com", "10.0.0.6 a.example.com"]
    "#comment" "a.example.com" (by decide)⟩

/-- C7: the line written by the create operation (`"<address> <hostname>"`)
is parsed back by the state reader into the pair (hostname, address), so
after appending it to any existing hosts data the hostname resolves to the
address, and a subsequent apply pass never issues a create call for that
hostname again. -/
theorem host_entry_round_trip (ip host tIP : String) (hosts desired : List String)
    (addOk : String → Bool) (hip : ip ≠ "") (hhost : host ≠ "")
    (hipc : ∀ c ∈ ip.toList, goIsSpace c = false)
    (hhostc : ∀ c ∈ host.toList, goIsSpace c = false) :
    parseHostLine (hostEntry ip host) = some (host, ip) ∧
    assocLookup host (buildRecords (hosts ++ [hostEntry ip host])) = some ip ∧
    host ∉ (runSync false addOk tIP desired
        (buildRecords (hosts ++ [hostEntry ip host]))).createCalls.map Prod.fst := by
  have hparse := parseHostLine_hostEntry ip host hip hhost hipc hhostc
  have hbuild : buildRecords (hosts ++ [hostEntry ip host]) =
      assocInsert host ip (buildRecords hosts) := by
    unfold buildRecords
    rw [List.foldl_append]
    simp only [List.foldl_cons, List.foldl_nil, hparse]
  have hlook : assocLookup host (buildRecords (hosts ++ [hostEntry ip host])) = some ip := by
    rw [hbuild, assocLookup_assocInsert]
    simp
  refine ⟨hparse, hlook, ?_⟩
  intro hmem
  have hcc : (runSync false addOk tIP desired
      (buildRecords (hosts ++ [hostEntry ip host]))).createCalls =
      (desired.filter (fun x =>
        (assocLookup x (buildRecords (hosts ++ [hostEntry ip host]))).isNone)).map
        (fun x => (x, tIP)) := by
    rw [runSync_false_spec]
  rw [hcc] at hmem
  simp only [List.map_map, List.mem_map, Function.comp_apply, List.mem_filter] at hmem
  obtain ⟨x, ⟨hxd, hxn⟩, hxe⟩ := hmem
  rw [hxe] at hxn
  rw [hlook] at hxn
  simp at hxn

/-- Witness for C7: the entry written for b.example.com is read back and
a next pass over desired a.example.com, b.example.com issues no create
call for b.example.com. -/
theorem host_entry_round_trip_witness :
    ("10.0.0.5" : String) ≠ "" ∧ ("b.example.com" : String) ≠ "" ∧
    (∀ c ∈ ("10.0.0.5" : String).toList, goIsSpace c = false) ∧
    (∀ c ∈ ("b.example.com" : String).toList, goIsSpace c = false) ∧
    (parseHostLine (hostEntry "10.0.0.5" "b.example.com") = some ("b.example.com", "10.0.0.5") ∧
    assocLookup "b.example.com"
        (buildRecords (["10.0.0.5 a.example.com"] ++ [hostEntry "10.0.0.5" "b.example.com"])) =
      some "10.0.0.5" ∧
    "b.example.com" ∉ (runSync false (fun _ => true) "10.0.0.5"
        ["a.example.com", "b.example.com"]
        (buildRecords (["10.0.0.5 a.example.com"] ++
          [hostEntry "10.0.0.5" "b.example.com"]))).createCalls.map Prod.fst) :=
  ⟨by decide, by decide, by decide, by decide,
    host_entry_round_trip "10.0.0.5" "b.example.com" "10.0.0.5"
      ["10.0.0.5 a.example.com"] ["a.example.com", "b.example.com"] (fun _ => true)
      (by decide) (by decide) (by decide) (by decide)⟩

theorem insertHostname_eq (acc : List String) (piece : List Char) :
    insertHostname acc piece =
    if String.mk (trimBy (fun d => d = grave) (trimBy goIsSpace piece)) ≠ ""
    then setInsert acc (String.mk (trimBy (fun d => d = grave) (trimBy goIsSpace piece)))
    else acc := rfl

theorem insertHostname_mem (acc : List String) (piece : List Char) (x : String)
    (hx : x ∈ insertHostname acc piece) :
    x ∈ acc ∨ (x ≠ "" ∧
      x = String.mk (trimBy (fun d => d = grave) (trimBy goIsSpace piece))) := by
  rw [insertHostname_eq] at hx
  by_cases hne : String.mk (trimBy (fun d => d = grave) (trimBy goIsSpace piece)) ≠ ""
  · rw [if_pos hne] at hx
    rcases (mem_setInsert acc _ x).mp hx with h | h
    · exact Or.inl h
    · exact Or.inr ⟨h ▸ hne, h⟩
  · rw [if_neg hne] at hx
    exact Or.inl hx

theorem insertHostname_nodup (acc : List String) (piece : List Char) (hnd : acc.Nodup) :
    (insertHostname acc piece).Nodup := by
  rw [insertHostname_eq]
  by_cases hne : String.mk (trimBy (fun d => d = grave) (trimBy goIsSpace piece)) ≠ ""
  · rw [if_pos hne]
    exact setInsert_nodup acc _ hnd
  · rw [if_neg hne]
    exact hnd

theorem insertContent_mem (acc : List String) (content : List Char) (x : String)
    (hx : x ∈ insertContent acc content) :
    x ∈ acc ∨ (x ≠ "" ∧ ∃ piece, piece ∈ splitComma content ∧
      x = String.mk (trimBy (fun d => d = grave) (trimBy goIsSpace piece))) := by
  unfold insertContent at hx
  rcases foldl_mem_general insertHostname
      (fun piece x => x ≠ "" ∧
        x = String.mk (trimBy (fun d => d = grave) (trimBy goIsSpace piece)))
      insertHostname_mem (splitComma content) acc x hx with h | ⟨piece, hp, hne, hexact⟩
  · exact Or.inl h
  · exact Or.inr ⟨hne, piece, hp, hexact⟩

theorem insertContent_nodup (acc : List String) (content : List Char) (hnd : acc.Nodup) :
    (insertContent acc content).Nodup :=
  foldl_nodup_general insertHostname insertHostname_nodup (splitComma content) acc hnd

theorem extractFromRouter_mem (acc : List String) (router : TraefikRouter) (x : String)
    (hx : x ∈ extractFromRouter acc router) :
    x ∈ acc ∨ (router.Status = "enabled" ∧ x ≠ "" ∧
      ∃ content, content ∈ scanHostMatches router.Rule.toList ∧
        ∃ piece, piece ∈ splitComma content ∧
          x = String.mk (trimBy (fun d => d = grave) (trimBy goIsSpace piece))) := by
  unfold extractFromRouter at hx
  by_cases hs : router.Status ≠ "enabled"
  · rw [if_pos hs] at hx
    exact Or.inl hx
  · rw [if_neg hs] at hx
    have hstat : router.Status = "enabled" := not_ne_iff.mp hs
    rcases foldl_mem_general insertContent
        (fun content x => x ≠ "" ∧ ∃ piece, piece ∈ splitComma content ∧
          x = String.mk (trimBy (fun d => d = grave) (trimBy goIsSpace piece)))
        (fun acc' content x hx' => insertContent_mem acc' content x hx')
        (scanHostMatches router.Rule.toList) acc x hx with h | ⟨content, hc, hne, hex⟩
    · exact Or.inl h
    · exact Or.inr ⟨hstat, hne, content, hc, hex⟩

theorem extractFromRouter_nodup (acc : List String) (router : TraefikRouter)
    (hnd : acc.Nodup) : (extractFromRouter acc router).Nodup := by
  unfold extractFromRouter
  by_cases hs : router.Status ≠ "enabled"
  · rw [if_pos hs]
    exact hnd
  · rw [if_neg hs]
    exact foldl_nodup_general insertContent insertContent_nodup
      (scanHostMatches router.Rule.toList) acc hnd

theorem setInsert_mem_of_mem (acc : List String) (h x : String) (hx : x ∈ acc) :
    x ∈ setInsert acc h := (mem_setInsert acc h x).mpr (Or.inl hx)

theorem setInsert_mem_self (acc : List String) (h : String) : h ∈ setInsert acc h :=
  (mem_setInsert acc h h).mpr (Or.inr rfl)

theorem insertHostname_pres (acc : List String) (piece : List Char) (x : String)
    (hx : x ∈ acc) : x ∈ insertHostname acc piece := by
  rw [insertHostname_eq]
  by_cases hne : String.mk (trimBy (fun d => d = grave) (trimBy goIsSpace piece)) ≠ ""
  · rw [if_pos hne]
    exact setInsert_mem_of_mem acc _ x hx
  · rw [if_neg hne]
    exact hx

theorem foldl_mem_preserved {β : Type} (step : List String → β → List String)
    (hpres : ∀ acc b x, x ∈ acc → x ∈ step acc b) :
    ∀ (l : List β) (acc : List String) (x : String), x ∈ acc → x ∈ l.foldl step acc := by
  intro l
  induction l with
  | nil => intro acc x hx; exact hx
  | cons b t ih =>
    intro acc x hx
    rw [List.foldl_cons]
    exact ih (step acc b) x (hpres acc b x hx)

theorem foldl_mem_of_hit {β : Type} (step : List String → β → List String)
    (hpres : ∀ acc b x, x ∈ acc → x ∈ step acc b) (b : β) (x : String)
    (hhit : ∀ acc, x ∈ step acc b) :
    ∀ (l : List β) (acc : List String), b ∈ l → x ∈ l.foldl step acc := by
  intro l
  induction l with
  | nil => intro acc hb; cases hb
  | cons c t ih =>
    intro acc hb
    rw [List.foldl_cons]
    rcases List.mem_cons.mp hb with rfl | hb'
    · exact foldl_mem_preserved step hpres t (step acc b) x (hhit acc)
    · exact ih (step acc c) hb'

theorem insertContent_pres (acc : List String) (content : List Char) (x : String)
    (hx : x ∈ acc) : x ∈ insertContent acc content :=
  foldl_mem_preserved insertHostname insertHostname_pres (splitComma content) acc x hx

theorem extractFromRouter_pres (acc : List String) (router : TraefikRouter) (x : String)
    (hx : x ∈ acc) : x ∈ extractFromRouter acc router := by
  unfold extractFromRouter
  by_cases hs : router.Status ≠ "enabled"
  · rw [if_pos hs]
    exact hx
  · rw [if_neg hs]
    exact foldl_mem_preserved insertContent insertContent_pres
      (scanHostMatches router.Rule.toList) acc x hx

theorem insertHostname_hit (piece : List Char)
    (hne : String.mk (trimBy (fun d => d = grave) (trimBy goIsSpace piece)) ≠ "") :
    ∀ acc, String.mk (trimBy (fun d => d = grave) (trimBy goIsSpace piece)) ∈
      insertHostname acc piece := by
  intro acc
  rw [insertHostname_eq, if_pos hne]
  exact setInsert_mem_self acc _

theorem insertContent_hit (content piece : List Char) (hp : piece ∈ splitComma content)
    (hne : String.mk (trimBy (fun d => d = grave) (trimBy goIsSpace piece)) ≠ "") :
    ∀ acc, String.mk (trimBy (fun d => d = grave) (trimBy goIsSpace piece)) ∈
      insertContent acc content := by
  intro acc
  exact foldl_mem_of_hit insertHostname insertHostname_pres piece _
    (insertHostname_hit piece hne) (splitComma content) acc hp

theorem extractFromRouter_hit (router : TraefikRouter) (content piece : List Char)
    (hstat : router.Status = "enabled")
    (hc : content ∈ scanHostMatches router.Rule.toList) (hp : piece ∈ splitComma content)
    (hne : String.mk (trimBy (fun d => d = grave) (trimBy goIsSpace piece)) ≠ "") :
    ∀ acc, String.mk (trimBy (fun d => d = grave) (trimBy goIsSpace piece)) ∈
      extractFromRouter acc router := by
  intro acc
  unfold extractFromRouter
  rw [if_neg (not_ne_iff.mpr hstat)]
  exact foldl_mem_of_hit insertContent insertContent_pres content _
    (insertContent_hit content piece hp hne) (scanHostMatches router.Rule.toList) acc hc

/-- C8: the extractor's output is a duplicate-free set; every produced
hostname is nonempty and is obtained from some route whose status equals
"enabled" (routes with any other status contribute nothing) by taking a
regex capture of its rule, splitting it on commas, and trimming the piece
of surrounding whitespace and then backticks; and conversely every
nonempty trimmed literal matched in any enabled route's rule — however
many routes or pieces produce it — appears exactly once in the output. -/
theorem extractor_output_is_trimmed_set_from_enabled_routes (routers : RouterMap)
    (h : String) :
    (extractHostnames routers).Nodup ∧
    (h ∈ extractHostnames routers →
      h ≠ "" ∧
      ∃ r, r ∈ routers.map Prod.snd ∧ r.Status = "enabled" ∧
        ∃ content, content ∈ scanHostMatches r.Rule.toList ∧
          ∃ piece, piece ∈ splitComma content ∧
            h = String.mk (trimBy (fun d => d = grave) (trimBy goIsSpace piece))) ∧
    (∀ r, r ∈ routers.map Prod.snd → r.Status = "enabled" →
      ∀ content, content ∈ scanHostMatches r.Rule.toList →
        ∀ piece, piece ∈ splitComma content →
          String.mk (trimBy (fun d => d = grave) (trimBy goIsSpace piece)) ≠ "" →
          (extractHostnames routers).count
            (String.mk (trimBy (fun d => d = grave) (trimBy goIsSpace piece))) = 1) := by
  have hnd : (extractHostnames routers).Nodup :=
    foldl_nodup_general extractFromRouter extractFromRouter_nodup
      (routers.map Prod.snd) [] List.nodup_nil
  refine ⟨hnd, ?_, ?_⟩
  · intro hmem
    have hsrc := foldl_mem_general extractFromRouter
      (fun r x => r.Status = "enabled" ∧ x ≠ "" ∧
        ∃ content, content ∈ scanHostMatches r.Rule.toList ∧
          ∃ piece, piece ∈ splitComma content ∧
            x = String.mk (trimBy (fun d => d = grave) (trimBy goIsSpace piece)))
      (fun acc r x hx => extractFromRouter_mem acc r x hx)
      (routers.map Prod.snd) [] h hmem
    rcases hsrc with h0 | ⟨r, hr, hstat, hne, hex⟩
    · cases h0
    · exact ⟨hne, r, hr, hstat, hex⟩
  · intro r hr hstat content hc piece hp hne
    have hin : String.mk (trimBy (fun d => d = grave) (trimBy goIsSpace piece)) ∈
        extractHostnames routers := by
      unfold extractHostnames
      exact foldl_mem_of_hit extractFromRouter extractFromRouter_pres r _
        (extractFromRouter_hit r content piece hstat hc hp hne)
        (routers.map Prod.snd) [] hr
    exact List.count_eq_one_of_mem hnd hin

/-- Witness for C8: a.example.com occurs twice in one enabled route's rule
and again in a second enabled route, yet is extracted exactly once; the
discharged hypotheses exhibit it as a matched, trimmed, nonempty literal
of the first route. -/
theorem extractor_output_is_trimmed_set_from_enabled_routes_witness :
    (extractHostnames
        [("r1",
          { Name := "r1", Rule := "Host(`a.example.com`) || Host(`a.example.com`)",
            Status := "enabled" }),
         ("r2",
          { Name := "r2", Rule := "Host(`a.example.com`)", Status := "enabled" })]).Nodup ∧
    (extractHostnames
        [("r1",
          { Name := "r1", Rule := "Host(`a.example.com`) || Host(`a.example.com`)",
            Status := "enabled" }),
         ("r2",
          { Name := "r2", Rule := "Host(`a.example.com`)", Status := "enabled" })]).count
      "a.example.com" = 1 := by
  have hfull := extractor_output_is_trimmed_set_from_enabled_routes
    [("r1",
      { Name := "r1", Rule := "Host(`a.example.com`) || Host(`a.example.com`)",
        Status := "enabled" }),
     ("r2",
      { Name := "r2", Rule := "Host(`a.example.com`)", Status := "enabled" })]
    "a.example.com"
  refine ⟨hfull.1, ?_⟩
  have hcount := hfull.2.2
    { Name := "r1", Rule := "Host(`a.example.com`) || Host(`a.example.com`)",
      Status := "enabled" }
    (by decide) (by decide)
    ("a.example.com".toList) (by decide)
    ("a.example.com".toList) (by decide) (by decide)
  have htrim : String.mk
      (trimBy (fun d => d = grave) (trimBy goIsSpace ("a.example.com".toList))) =
      "a.example.com" := by decide
  rw [htrim] at hcount
  exact hcount

theorem sync_filter_accounting (ex : RecordMap) (addOk : String → Bool) :
    ∀ l : List String,
      (l.filter (fun x => (assocLookup x ex).isNone && addOk x)).length +
      (l.filter (fun x => (assocLookup x ex).isNone && !(addOk x))).length +
      (l.filter (fun x => (assocLookup x ex).isSome)).length = l.length := by
  intro l
  induction l with
  | nil => simp
  | cons h t ih =>
    cases hx : assocLookup h ex with
    | none =>
      cases ha : addOk h
      · simp [List.filter_cons, hx, ha]
        omega
      · simp [List.filter_cons, hx, ha]
        omega
    | some v =>
      simp [List.filter_cons, hx]
      omega

/-- C4: a failed create call for one hostname is recorded (logged) in the
failure list and does not stop the loop — the hostnames before and after
it are processed exactly as they would be on their own, and every hostname
is accounted for as added, failed or pre-existing; the pass as a whole
still returns success whenever authentication, the route fetch and the
existing-state fetch succeeded, and returns an error exactly for failures
of those three pre-processing steps. -/
theorem per_hostname_failure_is_tolerated (addOk : String → Bool)
    (tIP sid e₁ e₃ : String) (pre post hosts : List String) (h : String)
    (ex : RecordMap) (body bodyBad : TraefikBody) (routers : RouterMap)
    (hok : getTraefikRouters body = Except.ok routers)
    (hbadA : bodyBad.asArray = none) (hbadO : bodyBad.asObject = none)
    (hne : extractHostnames routers ≠ []) :
    (runSync false addOk tIP (pre ++ h :: post) ex).failed =
      (pre ++ h :: post).filter (fun x => (assocLookup x ex).isNone && !(addOk x)) ∧
    (runSync false addOk tIP (pre ++ h :: post) ex).createCalls =
      (runSync false addOk tIP pre ex).createCalls ++
      (runSync false addOk tIP [h] ex).createCalls ++
      (runSync false addOk tIP post ex).createCalls ∧
    (runSync false addOk tIP (pre ++ h :: post) ex).added +
      (runSync false addOk tIP (pre ++ h :: post) ex).failed.length +
      (runSync false addOk tIP (pre ++ h :: post) ex).preExisting.length =
      (pre ++ h :: post).length ∧
    (∃ out, syncDNS (Except.ok sid) body (Except.ok hosts) false addOk tIP =
      Except.ok out) ∧
    syncDNS (Except.error e₁) body (Except.ok hosts) false addOk tIP =
      Except.error ("authentication failed: " ++ e₁) ∧
    syncDNS (Except.ok sid) bodyBad (Except.ok hosts) false addOk tIP =
      Except.error ("failed to get Traefik routers: " ++
        ("failed to parse Traefik response as array or map: " ++ bodyBad.decodeErr)) ∧
    syncDNS (Except.ok sid) body (Except.error e₃) false addOk tIP =
      Except.error ("failed to get Pi-hole DNS records: " ++ e₃) := by
  have hE : (extractHostnames routers).isEmpty = false := by
    cases hE' : (extractHostnames routers).isEmpty
    · rfl
    · exact absurd (List.isEmpty_iff.mp hE') hne
  refine ⟨by rw [runSync_false_spec], ?_, ?_, ?_, by rfl, ?_, ?_⟩
  · simp only [runSync_false_spec]
    cases hx : (assocLookup h ex).isNone <;>
      simp [List.filter_append, List.map_append, List.filter_cons, hx, List.append_assoc]
  · simp only [runSync_false_spec]
    exact sync_filter_accounting ex addOk (pre ++ h :: post)
  · exact ⟨some (runSync false addOk tIP (extractHostnames routers) (buildRecords hosts)),
      by simp [syncDNS, hok, hE, getPiHoleDNSRecords]⟩
  · simp [syncDNS, getTraefikRouters, hbadA, hbadO]
  · simp [syncDNS, hok, hE, getPiHoleDNSRecords]

/-- Witness for C4: with b.example.com failing between two other
hostnames, the failure is recorded, both neighbours are still processed,
the pass succeeds, and each pre-processing failure aborts with its own
error. -/
theorem per_hostname_failure_is_tolerated_witness :
    getTraefikRouters
        { asArray := some
            [{ Name := "web", Rule := "Host(`a.example.com`)", Status := "enabled" }],
          asObject := none, raw := "", decodeErr := "" } =
      Except.ok
        [("web", { Name := "web", Rule := "Host(`a.example.com`)", Status := "enabled" })] ∧
    extractHostnames
        [("web", { Name := "web", Rule := "Host(`a.example.com`)", Status := "enabled" })] ≠
      [] ∧
    ((runSync false (fun x => x != "b.example.com") "10.0.0.5"
        (["a.example.com"] ++ "b.example.com" :: ["c.example.com"])
        [("a.example.com", "10.0.0.5")]).failed =
      (["a.example.com"] ++ "b.example.com" :: ["c.example.com"]).filter
        (fun x => (assocLookup x [("a.example.com", "10.0.0.5")]).isNone &&
          !(x != "b.example.com")) ∧
    (runSync false (fun x => x != "b.example.com") "10.0.0.5"
        (["a.example.com"] ++ "b.example.com" :: ["c.example.com"])
        [("a.example.com", "10.0.0.5")]).createCalls =
      (runSync false (fun x => x != "b.example.com") "10.0.0.5" ["a.example.com"]
        [("a.example.com", "10.0.0.5")]).createCalls ++
      (runSync false (fun x => x != "b.example.com") "10.0.0.5" ["b.example.com"]
        [("a.example.com", "10.0.0.5")]).createCalls ++
      (runSync false (fun x => x != "b.example.com") "10.0.0.5" ["c.example.com"]
        [("a.example.com", "10.0.0.5")]).createCalls ∧
    (runSync false (fun x => x != "b.example.com") "10.0.0.5"
        (["a.example.com"] ++ "b.example.com" :: ["c.example.com"])
        [("a.example.com", "10.0.0.5")]).added +
      (runSync false (fun x => x != "b.example.com") "10.0.0.5"
        (["a.example.com"] ++ "b.example.com" :: ["c.example.com"])
        [("a.example.com", "10.0.0.5")]).failed.length +
      (runSync false (fun x => x != "b.example.com") "10.0.0.5"
        (["a.example.com"] ++ "b.example.com" :: ["c.example.com"])
        [("a.example.com", "10.0.0.5")]).preExisting.length =
      (["a.example.com"] ++ "b.example.com" :: ["c.example.com"]).length ∧
    (∃ out, syncDNS (Except.ok "sid")
        { asArray := some
            [{ Name := "web", Rule := "Host(`a.example.com`)", Status := "enabled" }],
          asObject := none, raw := "", decodeErr := "" }
        (Except.ok ["10.0.0.5 a.example.com"]) false
        (fun x => x != "b.example.com") "10.0.0.5" = Except.ok out) ∧
    syncDNS (Except.error "401")
        { asArray := some
            [{ Name := "web", Rule := "Host(`a.example.com`)", Status := "enabled" }],
          asObject := none, raw := "", decodeErr := "" }
        (Except.ok ["10.0.0.5 a.example.com"]) false
        (fun x => x != "b.example.com") "10.0.0.5" =
      Except.error ("authentication failed: " ++ "401") ∧
    syncDNS (Except.ok "sid")
        { asArray := none, asObject := none, raw := "oops", decodeErr := "invalid body" }
        (Except.ok ["10.0.0.5 a.example.com"]) false
        (fun x => x != "b.example.com") "10.0.0.5" =
      Except.error ("failed to get Traefik routers: " ++
        ("failed to parse Traefik response as array or map: " ++ "invalid body")) ∧
    syncDNS (Except.ok "sid")
        { asArray := some
            [{ Name := "web", Rule := "Host(`a.example.com`)", Status := "enabled" }],
          asObject := none, raw := "", decodeErr := "" }
        (Except.error "500") false
        (fun x => x != "b.example.com") "10.0.0.5" =
      Except.error ("failed to get Pi-hole DNS records: " ++ "500")) :=
  ⟨by rfl, by decide,
    per_hostname_failure_is_tolerated (fun x => x != "b.example.com") "10.0.0.5"
      "sid" "401" "500" ["a.example.com"] ["c.example.com"]
      ["10.0.0.5 a.example.com"] "b.example.com" [("a.example.com", "10.0.0.5")]
      { asArray :=
          some [{ Name := "web", Rule := "Host(`a.example.com`)", Status := "enabled" }],
        asObject := none, raw := "", decodeErr := "" }
      { asArray := none, asObject := none, raw := "oops", decodeErr := "invalid body" }
      [("web", { Name := "web", Rule := "Host(`a.example.com`)", Status := "enabled" })]
      (by rfl) (by rfl) (by rfl) (by decide)⟩

end TraefikPiholeSync
